import Mathlib

/-!
Shallow embedding of `src/cpu_simulator.py` (class `CPUSimulator` and the
entry point `simulate_cpu`).

Instructions are Python strings; we work on their character lists.  The
helper functions below model the exact Python string operations used by the
simulator: `str.strip()`, `str.replace(',', ' ')`, `str.split()` (no
argument: split on whitespace runs, discarding empty pieces), and the
pre-compiled regular expression `([VRP])(\d+)` used with `re.match`, which
anchors at the start of the token but not at its end.  Inputs are ASCII, so
the `\d` character class is modelled as the ASCII digits.
-/

/-- A token is the character list of a Python string. -/
abbrev Token := List Char

/-- Characters treated as whitespace by Python `str.strip()` / `str.split()`. -/
def pyIsSpace (c : Char) : Bool :=
  c = ' ' || c = '\t' || c = '\n' || c = '\x0d' || c = '\x0b' || c = '\x0c'

/-- Python `str.strip()`: drop leading and trailing whitespace. -/
def pyStrip (s : List Char) : List Char :=
  ((s.dropWhile pyIsSpace).reverse.dropWhile pyIsSpace).reverse

/-- Python `str.replace(',', ' ')` as used on instruction text. -/
def replaceCommas (s : List Char) : List Char :=
  s.map (fun c => if c = ',' then ' ' else c)

/-- Accumulator loop for Python `str.split()` with no separator argument. -/
def pySplitAux : List Char → List Char → List Token
  | [], acc => if acc.isEmpty then [] else [acc.reverse]
  | c :: rest, acc =>
    if pyIsSpace c then
      if acc.isEmpty then pySplitAux rest []
      else acc.reverse :: pySplitAux rest []
    else pySplitAux rest (c :: acc)

/-- Python `str.split()`: tokens separated by whitespace runs, no empties. -/
def pySplit (s : List Char) : List Token :=
  pySplitAux s []

/-- ASCII decimal digit, the characters matched by `\d` on this input set. -/
def isDigitChar (c : Char) : Bool :=
  '0' ≤ c && c ≤ '9'

/-- Numeric value of a digit run, as computed by Python `int` on the string. -/
def digitsToNatAux (acc : Nat) : List Char → Nat
  | [] => acc
  | c :: rest => digitsToNatAux (acc * 10 + (c.toNat - '0'.toNat)) rest

/-- Python `int(num)` on the digit group captured by the operand regex. -/
def digitsToNat (ds : List Char) : Nat :=
  digitsToNatAux 0 ds

/-- Python `self.operand_regex.match(operand_str)` for the pattern
`([VRP])(\d+)`: `re.match` anchors at the start of the token only, so the
mode letter must be the first character and must be followed by at least one
digit, but any characters after the (maximal) digit run are ignored.
Returns the mode letter and the integer value of the digit group. -/
def matchOperand (s : Token) : Option (Char × Nat) :=
  match s with
  | [] => none
  | c :: rest =>
    if c = 'V' || c = 'R' || c = 'P' then
      if (rest.takeWhile isDigitChar).isEmpty then none
      else some (c, digitsToNat (rest.takeWhile isDigitChar))
    else none

/-- The distinct raise sites of `cpu_simulator.py`, one constructor per
site.  The first five are explicit `raise ValueError(...)` calls; the last
three model the built-in exceptions Python raises at the marked spots
(`parts[0]` / `operands[0]` on an empty list: `IndexError`; tuple
unpacking `dest, src = operands` with the wrong length: `ValueError`). -/
inductive Err where
  | invalidOperandFormat (token : Token)
  | registerIndexOutOfBounds (idx : Nat)
  | pointerIndexOutOfBounds (idx : Nat)
  | pointerAddressOutOfBounds (idx : Nat) (addr : Int)
  | unknownAddressingMode
  | cannotSetLiteral
  | emptyParts
  | emptyOperands
  | unpackMismatch
deriving DecidableEq, Repr

/-- The bounds-error family that §7 of the spec names `RegisterOutOfRange`:
any index, direct or either hop of a pointer dereference, out of `[0, N)`. -/
def Err.isRegisterOutOfRange : Err → Bool
  | .registerIndexOutOfBounds _ => true
  | .pointerIndexOutOfBounds _ => true
  | .pointerAddressOutOfBounds _ _ => true
  | _ => false

/-- Python `CPUSimulator._get_value(operand_str)`: decode an operand token and
resolve it to a value against the current registers.  The index captured by
the regex is a natural number, so the Python check `0 <= num < len` is the
single comparison `num < length` here. -/
def getValue (registers : List Int) (operandStr : Token) : Except Err Int :=
  match matchOperand operandStr with
  | none => .error (.invalidOperandFormat operandStr)
  | some (mode, num) =>
    if mode = 'V' then
      .ok (Int.ofNat num)
    else if mode = 'R' then
      if num < registers.length then .ok (registers.getD num 0)
      else .error (.registerIndexOutOfBounds num)
    else if mode = 'P' then
      if num < registers.length then
        if 0 ≤ registers.getD num 0 ∧
            registers.getD num 0 < (registers.length : Int) then
          .ok (registers.getD (registers.getD num 0).toNat 0)
        else .error (.pointerAddressOutOfBounds num (registers.getD num 0))
      else .error (.pointerIndexOutOfBounds num)
    else
      .error .unknownAddressingMode

/-- Python `CPUSimulator._set_value(operand_str, value)`: resolve a write target
and return the updated register list.  Note the Python `if`/`elif` chain
for the mode has no final `else`, so an unknown mode would fall through
without writing (unreachable: the regex only produces V, R, P). -/
def setValue (registers : List Int) (operandStr : Token) (value : Int) :
    Except Err (List Int) :=
  match matchOperand operandStr with
  | none => .error (.invalidOperandFormat operandStr)
  | some (mode, num) =>
    if mode = 'V' then
      .error .cannotSetLiteral
    else if mode = 'R' then
      if num < registers.length then .ok (registers.set num value)
      else .error (.registerIndexOutOfBounds num)
    else if mode = 'P' then
      if num < registers.length then
        if 0 ≤ registers.getD num 0 ∧
            registers.getD num 0 < (registers.length : Int) then
          .ok (registers.set (registers.getD num 0).toNat value)
        else .error (.pointerAddressOutOfBounds num (registers.getD num 0))
      else .error (.pointerIndexOutOfBounds num)
    else
      .ok registers

/-- The mutable state of `CPUSimulator` as set up by `__init__`:
registers, instruction list, `max_steps`, instruction pointer `ip`
(an integer: jump targets are applied verbatim and may be negative),
comparison flag `cf`, and `steps_executed`. -/
structure CPUState where
  registers : List Int
  instructions : List String
  maxSteps : Nat
  ip : Int
  cf : Int
  steps : Nat
deriving DecidableEq, Repr

/-- Python `CPUSimulator.__init__(registers, instructions, max_steps)`. -/
def mkCPU (registers : List Int) (instructions : List String)
    (maxSteps : Nat) : CPUState :=
  { registers := registers, instructions := instructions,
    maxSteps := maxSteps, ip := 0, cf := 0, steps := 0 }

/-- Outcome of one iteration of the `run` loop body: continue to the next
iteration, `break` out of the loop (the `HALT` opcode), or a raised
exception propagating to the caller. -/
inductive StepResult where
  | next (st : CPUState)
  | halted (st : CPUState)
  | err (e : Err)
deriving DecidableEq, Repr

/-- The `MOV` branch of the dispatch chain:
`dest, src = operands; self._set_value(dest, self._get_value(src))`. -/
def execMov (st : CPUState) (operands : List Token) : StepResult :=
  match operands with
  | [dest, src] =>
    match getValue st.registers src with
    | .error e => .err e
    | .ok v =>
      match setValue st.registers dest v with
      | .error e => .err e
      | .ok regs => .next { st with registers := regs, ip := st.ip + 1 }
  | _ => .err .unpackMismatch

/-- The `ADD` / `MUL` branches, which differ only in the operation:
`dest, src = operands;
self._set_value(dest, op(self._get_value(dest), self._get_value(src)))`,
evaluating the `dest` read before the `src` read. -/
def execArith (st : CPUState) (operands : List Token) (op : Int → Int → Int) :
    StepResult :=
  match operands with
  | [dest, src] =>
    match getValue st.registers dest with
    | .error e => .err e
    | .ok a =>
      match getValue st.registers src with
      | .error e => .err e
      | .ok b =>
        match setValue st.registers dest (op a b) with
        | .error e => .err e
        | .ok regs => .next { st with registers := regs, ip := st.ip + 1 }
  | _ => .err .unpackMismatch

/-- The `CMP` branch: compare the two resolved values and set `cf`. -/
def execCmp (st : CPUState) (operands : List Token) : StepResult :=
  match operands with
  | [op1, op2] =>
    match getValue st.registers op1 with
    | .error e => .err e
    | .ok val1 =>
      match getValue st.registers op2 with
      | .error e => .err e
      | .ok val2 =>
        .next { st with
                cf := if val1 < val2 then -1 else if val1 > val2 then 1 else 0,
                ip := st.ip + 1 }
  | _ => .err .unpackMismatch

/-- A taken jump: `self.ip = self._get_value(operands[0])`, the target
applied verbatim with no bounds pre-check.  `operands[0]` on an empty list
raises `IndexError`; operands beyond the first are ignored. -/
def execJump (st : CPUState) (operands : List Token) : StepResult :=
  match operands with
  | [] => .err .emptyOperands
  | target :: _ =>
    match getValue st.registers target with
    | .error e => .err e
    | .ok v => .next { st with ip := v }

/-- The body of the `while` loop of `CPUSimulator.run`, after the
`steps_executed += 1` increment (performed by `stepInstr`): fetch the
instruction at `ip`, skip blanks, tokenize, and dispatch on the opcode.
The opcode dispatch is a sequential `if`/`elif` chain with no `else`: an
unmatched opcode falls through to the final `ip += 1` with no effect. -/
def execInstr (st : CPUState) : StepResult :=
  if (pyStrip (st.instructions.getD st.ip.toNat "").data).isEmpty then
    .next { st with ip := st.ip + 1 }
  else
    match pySplit (replaceCommas (pyStrip (st.instructions.getD st.ip.toNat "").data)) with
    | [] => .err .emptyParts
    | opcode :: operands =>
      if opcode = "MOV".data then execMov st operands
      else if opcode = "ADD".data then execArith st operands (· + ·)
      else if opcode = "MUL".data then execArith st operands (· * ·)
      else if opcode = "CMP".data then execCmp st operands
      else if opcode = "JMP".data then execJump st operands
      else if opcode = "JEQ".data then
        if st.cf = 0 then execJump st operands
        else .next { st with ip := st.ip + 1 }
      else if opcode = "JGT".data then
        if st.cf = 1 then execJump st operands
        else .next { st with ip := st.ip + 1 }
      else if opcode = "JLT".data then
        if st.cf = -1 then execJump st operands
        else .next { st with ip := st.ip + 1 }
      else if opcode = "HALT".data then .halted st
      else .next { st with ip := st.ip + 1 }

/-- One full iteration of the `run` loop body: `steps_executed += 1`, then
fetch, decode and dispatch. -/
def stepInstr (st : CPUState) : StepResult :=
  execInstr { st with steps := st.steps + 1 }

/-- The `while 0 <= self.ip < len(self.instructions) and
self.steps_executed < self.max_steps` loop of `CPUSimulator.run`.  The
recursion is driven by the remaining budget `fuel = max_steps -
steps_executed`: every iteration increments `steps_executed` by exactly one
(see `stepInstr_steps`), so the conjunct `steps_executed < max_steps` of
the loop guard holds exactly when `fuel > 0`. -/
def runLoop : Nat → CPUState → Except Err CPUState
  | 0, st => .ok st
  | fuel + 1, st =>
    if 0 ≤ st.ip ∧ st.ip < (st.instructions.length : Int) then
      match stepInstr st with
      | .err e => .error e
      | .halted st1 => .ok st1
      | .next st1 => runLoop fuel st1
    else
      .ok st

/-- Python `CPUSimulator.run()`: run the loop to a terminal state (it returns
`self.registers`; we keep the whole final state and project later). -/
def CPUSimulator.run (st : CPUState) : Except Err CPUState :=
  runLoop (st.maxSteps - st.steps) st

/-- Python `simulate_cpu(registers, instructions)`: construct a simulator with the
default `max_steps = 500000` and return the final registers; a raised
error propagates to the caller. -/
def simulate_cpu (registers : List Int) (instructions : List String) :
    Except Err (List Int) :=
  (CPUSimulator.run (mkCPU registers instructions 500000)).map
    (fun st => st.registers)

deriving instance DecidableEq for Except

/-- The invariants of one loop-body execution: step counter, budget,
program and register count all unchanged (the counter increment is done
before the body runs, see `stepInstr`). -/
def SamePreserved (st st1 : CPUState) : Prop :=
  st1.steps = st.steps ∧ st1.maxSteps = st.maxSteps ∧
    st1.instructions = st.instructions ∧
    st1.registers.length = st.registers.length

/-- The token shapes the compiled operand regex actually accepts: one mode
letter immediately followed by at least one decimal digit, with arbitrary
trailing characters permitted after the digit run (since `re.match` does
not anchor at the end of the token). -/
def operandPrefixGrammar : Token → Bool
  | c :: d :: _ => (c = 'V' || c = 'R' || c = 'P') && isDigitChar d
  | _ => false

/-! ### Basic lemmas about the embedding -/

/-- A successful register write leaves the register count unchanged:
`_set_value` only ever assigns to an existing index. -/
theorem setValue_length (registers : List Int) (t : Token) (v : Int)
    (regs1 : List Int) (h : setValue registers t v = .ok regs1) :
    regs1.length = registers.length := by
  unfold setValue at h
  repeat' split at h
  all_goals cases h
  all_goals simp

theorem execMov_preserves (st st1 : CPUState) (operands : List Token)
    (h : execMov st operands = .next st1 ∨ execMov st operands = .halted st1) :
    SamePreserved st st1 := by
  unfold execMov at h
  rcases h with h | h <;> repeat' split at h
  all_goals cases h
  all_goals exact ⟨rfl, rfl, rfl, setValue_length _ _ _ _ (by assumption)⟩

theorem execArith_preserves (st st1 : CPUState) (operands : List Token)
    (op : Int → Int → Int)
    (h : execArith st operands op = .next st1 ∨
      execArith st operands op = .halted st1) :
    SamePreserved st st1 := by
  unfold execArith at h
  rcases h with h | h <;> repeat' split at h
  all_goals cases h
  all_goals exact ⟨rfl, rfl, rfl, setValue_length _ _ _ _ (by assumption)⟩

theorem execCmp_preserves (st st1 : CPUState) (operands : List Token)
    (h : execCmp st operands = .next st1 ∨ execCmp st operands = .halted st1) :
    SamePreserved st st1 := by
  unfold execCmp at h
  rcases h with h | h <;> repeat' split at h
  all_goals cases h
  all_goals exact ⟨rfl, rfl, rfl, rfl⟩

theorem execJump_preserves (st st1 : CPUState) (operands : List Token)
    (h : execJump st operands = .next st1 ∨ execJump st operands = .halted st1) :
    SamePreserved st st1 := by
  unfold execJump at h
  rcases h with h | h <;> repeat' split at h
  all_goals cases h
  all_goals exact ⟨rfl, rfl, rfl, rfl⟩

set_option maxHeartbeats 1000000 in
/-- The loop body changes neither the step counter (already incremented by
`stepInstr`), the budget, the program, nor the register count. -/
theorem execInstr_preserves (st st1 : CPUState)
    (h : execInstr st = .next st1 ∨ execInstr st = .halted st1) :
    SamePreserved st st1 := by
  unfold execInstr at h
  rcases h with h | h <;> repeat' split at h
  all_goals
    first
    | exact execMov_preserves _ _ _ (Or.inl h)
    | exact execMov_preserves _ _ _ (Or.inr h)
    | exact execArith_preserves _ _ _ _ (Or.inl h)
    | exact execArith_preserves _ _ _ _ (Or.inr h)
    | exact execCmp_preserves _ _ _ (Or.inl h)
    | exact execCmp_preserves _ _ _ (Or.inr h)
    | exact execJump_preserves _ _ _ (Or.inl h)
    | exact execJump_preserves _ _ _ (Or.inr h)
    | (cases h; exact ⟨rfl, rfl, rfl, rfl⟩)
    | cases h

/-- One full iteration increments `steps_executed` by exactly one and keeps
budget, program and register count. -/
theorem stepInstr_preserves (st st1 : CPUState)
    (h : stepInstr st = .next st1 ∨ stepInstr st = .halted st1) :
    st1.steps = st.steps + 1 ∧ st1.maxSteps = st.maxSteps ∧
    st1.instructions = st.instructions ∧
    st1.registers.length = st.registers.length := by
  unfold stepInstr at h
  have := execInstr_preserves { st with steps := st.steps + 1 } st1 h
  simpa [SamePreserved] using this

/-- With the budget exhausted the loop guard fails and the run ends. -/
theorem runLoop_zero (st : CPUState) : runLoop 0 st = .ok st := rfl

/-- One-step unfolding of `runLoop` with budget remaining. -/
theorem runLoop_succ (fuel : Nat) (st : CPUState) :
    runLoop (fuel + 1) st =
      if 0 ≤ st.ip ∧ st.ip < (st.instructions.length : Int) then
        match stepInstr st with
        | .err e => .error e
        | .halted st1 => .ok st1
        | .next st1 => runLoop fuel st1
      else .ok st := by
  rw [runLoop]

/-- Unfolding of `runLoop` when the program counter is in range. -/
theorem runLoop_succ_in (fuel : Nat) (st : CPUState)
    (h : 0 ≤ st.ip ∧ st.ip < (st.instructions.length : Int)) :
    runLoop (fuel + 1) st =
      match stepInstr st with
      | .err e => .error e
      | .halted st1 => .ok st1
      | .next st1 => runLoop fuel st1 := by
  rw [runLoop_succ, if_pos h]

/-- Unfolding of `runLoop` when the program counter has left the program. -/
theorem runLoop_succ_out (fuel : Nat) (st : CPUState)
    (h : ¬ (0 ≤ st.ip ∧ st.ip < (st.instructions.length : Int))) :
    runLoop (fuel + 1) st = .ok st := by
  rw [runLoop_succ, if_neg h]

/-- A run that ends normally performs at most `fuel` further iterations. -/
theorem runLoop_steps_le (fuel : Nat) (st st1 : CPUState)
    (h : runLoop fuel st = .ok st1) : st1.steps ≤ st.steps + fuel := by
  induction fuel generalizing st with
  | zero =>
    rw [runLoop_zero] at h
    cases h
    exact Nat.le_refl _
  | succ n ih =>
    by_cases hin : 0 ≤ st.ip ∧ st.ip < (st.instructions.length : Int)
    · rw [runLoop_succ_in n st hin] at h
      rcases hs : stepInstr st with st2 | st2 | e <;> rw [hs] at h
      · have hp := stepInstr_preserves st st2 (Or.inl hs)
        have := ih st2 h
        omega
      · cases h
        have hp := stepInstr_preserves st st1 (Or.inr hs)
        omega
      · cases h
    · rw [runLoop_succ_out n st hin] at h
      cases h
      exact Nat.le_add_right _ _

/-- A run that ends normally preserves the register count. -/
theorem runLoop_length (fuel : Nat) (st st1 : CPUState)
    (h : runLoop fuel st = .ok st1) :
    st1.registers.length = st.registers.length := by
  induction fuel generalizing st with
  | zero =>
    rw [runLoop_zero] at h
    cases h
    rfl
  | succ n ih =>
    by_cases hin : 0 ≤ st.ip ∧ st.ip < (st.instructions.length : Int)
    · rw [runLoop_succ_in n st hin] at h
      rcases hs : stepInstr st with st2 | st2 | e <;> rw [hs] at h
      · have hp := stepInstr_preserves st st2 (Or.inl hs)
        rw [ih st2 h]
        exact hp.2.2.2
      · cases h
        exact (stepInstr_preserves st st1 (Or.inr hs)).2.2.2
      · cases h
    · rw [runLoop_succ_out n st hin] at h
      cases h
      rfl

/-- Characterization of `_get_value` on a pointer-mode token. -/
theorem getValue_P (regs : List Int) (t : Token) (idx : Nat)
    (h : matchOperand t = some ('P', idx)) :
    getValue regs t =
      if idx < regs.length then
        if 0 ≤ regs.getD idx 0 ∧ regs.getD idx 0 < (regs.length : Int) then
          .ok (regs.getD (regs.getD idx 0).toNat 0)
        else .error (.pointerAddressOutOfBounds idx (regs.getD idx 0))
      else .error (.pointerIndexOutOfBounds idx) := by
  unfold getValue
  rw [h]
  rfl

/-- Characterization of `_set_value` on a pointer-mode token. -/
theorem setValue_P (regs : List Int) (t : Token) (v : Int) (idx : Nat)
    (h : matchOperand t = some ('P', idx)) :
    setValue regs t v =
      if idx < regs.length then
        if 0 ≤ regs.getD idx 0 ∧ regs.getD idx 0 < (regs.length : Int) then
          .ok (regs.set (regs.getD idx 0).toNat v)
        else .error (.pointerAddressOutOfBounds idx (regs.getD idx 0))
      else .error (.pointerIndexOutOfBounds idx) := by
  unfold setValue
  rw [h]
  rfl

/-- Resolution of `_set_value` on an immediate-mode token. -/
theorem setValue_V (regs : List Int) (t : Token) (v : Int) (n : Nat)
    (h : matchOperand t = some ('V', n)) :
    setValue regs t v = .error .cannotSetLiteral := by
  unfold setValue
  rw [h]
  rfl

/-- Running the one-instruction program `JMP V0` never leaves instruction
0: each iteration just burns one unit of budget. -/
theorem runLoop_jmp0 (fuel m : Nat) : ∀ s : Nat,
    runLoop fuel ⟨[0], ["JMP V0"], m, 0, 0, s⟩ =
      .ok ⟨[0], ["JMP V0"], m, 0, 0, s + fuel⟩ := by
  induction fuel with
  | zero => intro s; rfl
  | succ n ih =>
    intro s
    have h1 : runLoop (n + 1) (⟨[0], ["JMP V0"], m, 0, 0, s⟩ : CPUState) =
        runLoop n ⟨[0], ["JMP V0"], m, 0, 0, s + 1⟩ := rfl
    have h2 : s + 1 + n = s + (n + 1) := by omega
    rw [h1, ih (s + 1), h2]

/-- With a tokenized, non-blank instruction in view, the loop body is
exactly the opcode dispatch chain. -/
theorem execInstr_dispatch (st : CPUState) (opcode : Token)
    (operands : List Token)
    (hsplit : pySplit (replaceCommas
        (pyStrip (st.instructions.getD st.ip.toNat "").data)) =
      opcode :: operands) :
    execInstr st =
      if opcode = "MOV".data then execMov st operands
      else if opcode = "ADD".data then execArith st operands (· + ·)
      else if opcode = "MUL".data then execArith st operands (· * ·)
      else if opcode = "CMP".data then execCmp st operands
      else if opcode = "JMP".data then execJump st operands
      else if opcode = "JEQ".data then
        if st.cf = 0 then execJump st operands
        else .next { st with ip := st.ip + 1 }
      else if opcode = "JGT".data then
        if st.cf = 1 then execJump st operands
        else .next { st with ip := st.ip + 1 }
      else if opcode = "JLT".data then
        if st.cf = -1 then execJump st operands
        else .next { st with ip := st.ip + 1 }
      else if opcode = "HALT".data then .halted st
      else .next { st with ip := st.ip + 1 } := by
  have hne : (pyStrip (st.instructions.getD st.ip.toNat "").data).isEmpty
      = false := by
    cases hx : pyStrip (st.instructions.getD st.ip.toNat "").data with
    | nil =>
      rw [hx] at hsplit
      exact absurd hsplit (by simp [pySplit, pySplitAux, replaceCommas])
    | cons a l => rfl
  unfold execInstr
  rw [hne, hsplit]
  rfl

/-! ### Claim theorems -/

/-- C4: resolving a pointer operand, for read or write, performs two
independent bounds checks and fails with a register-range error when the
index is out of `[0, N)` or when the dereferenced value is out of `[0, N)`;
the second dereference happens only when both checks pass; and a write to
an immediate operand fails with the invalid-write-target error. -/
theorem C4_pointer_write_resolution :
    (∀ (regs : List Int) (t : Token) (v : Int) (idx : Nat),
        matchOperand t = some ('P', idx) →
        (regs.length ≤ idx →
          getValue regs t = .error (Err.pointerIndexOutOfBounds idx) ∧
          setValue regs t v = .error (Err.pointerIndexOutOfBounds idx) ∧
          (Err.pointerIndexOutOfBounds idx).isRegisterOutOfRange = true) ∧
        (idx < regs.length →
          ¬ (0 ≤ regs.getD idx 0 ∧ regs.getD idx 0 < (regs.length : Int)) →
          getValue regs t =
            .error (Err.pointerAddressOutOfBounds idx (regs.getD idx 0)) ∧
          setValue regs t v =
            .error (Err.pointerAddressOutOfBounds idx (regs.getD idx 0)) ∧
          (Err.pointerAddressOutOfBounds idx
            (regs.getD idx 0)).isRegisterOutOfRange = true) ∧
        (idx < regs.length →
          0 ≤ regs.getD idx 0 ∧ regs.getD idx 0 < (regs.length : Int) →
          getValue regs t = .ok (regs.getD (regs.getD idx 0).toNat 0) ∧
          setValue regs t v = .ok (regs.set (regs.getD idx 0).toNat v))) ∧
    (∀ (regs : List Int) (t : Token) (v : Int) (n : Nat),
        matchOperand t = some ('V', n) →
        setValue regs t v = .error Err.cannotSetLiteral) := by
  constructor
  · intro regs t v idx hm
    refine ⟨fun hge => ?_, fun hlt hbad => ?_, fun hlt hok => ?_⟩
    · rw [getValue_P regs t idx hm, setValue_P regs t v idx hm]
      rw [if_neg (by omega), if_neg (by omega)]
      exact ⟨rfl, rfl, rfl⟩
    · rw [getValue_P regs t idx hm, setValue_P regs t v idx hm,
        if_pos hlt, if_pos hlt, if_neg hbad, if_neg hbad]
      exact ⟨rfl, rfl, rfl⟩
    · rw [getValue_P regs t idx hm, setValue_P regs t v idx hm,
        if_pos hlt, if_pos hlt, if_pos hok, if_pos hok]
      exact ⟨rfl, rfl⟩
  · intro regs t v n hm
    exact setValue_V regs t v n hm

/-- Witness for C4 at concrete inputs. -/
theorem C4_pointer_write_resolution_witness :
    getValue [(5 : Int)] "P3".data = .error (Err.pointerIndexOutOfBounds 3) ∧
    getValue [(5 : Int)] "P0".data =
      .error (Err.pointerAddressOutOfBounds 0 5) ∧
    getValue [(1 : Int), 7] "P0".data = .ok 7 ∧
    setValue [(9 : Int)] "V3".data 7 = .error Err.cannotSetLiteral :=
  ⟨((C4_pointer_write_resolution.1 [(5 : Int)] "P3".data 0 3
      (by decide)).1 (by decide)).1,
   ((C4_pointer_write_resolution.1 [(5 : Int)] "P0".data 0 0
      (by decide)).2.1 (by decide) (by decide)).1,
   ((C4_pointer_write_resolution.1 [(1 : Int), 7] "P0".data 0 0
      (by decide)).2.2 (by decide) (by decide)).1,
   C4_pointer_write_resolution.2 [(9 : Int)] "V3".data 7 3 (by decide)⟩

/-- C5: the fetch-execute loop performs at most `step_budget` steps and
reaching the budget ends the run without error; on registers `[0]` with
program `JMP V0` and budget `k` the run performs exactly `k` steps and
returns registers `[0]`. -/
theorem C5_step_budget :
    (∀ (regs : List Int) (instrs : List String) (k : Nat) (st1 : CPUState),
        CPUSimulator.run (mkCPU regs instrs k) = .ok st1 → st1.steps ≤ k) ∧
    (∀ k : Nat,
        CPUSimulator.run (mkCPU [0] ["JMP V0"] k) =
          .ok { registers := [0], instructions := ["JMP V0"], maxSteps := k,
                ip := 0, cf := 0, steps := k }) := by
  constructor
  · intro regs instrs k st1 h
    have hle := runLoop_steps_le (k - 0) (mkCPU regs instrs k) st1 h
    simpa [mkCPU] using hle
  · intro k
    unfold CPUSimulator.run
    rw [show (mkCPU [0] ["JMP V0"] k).maxSteps -
        (mkCPU [0] ["JMP V0"] k).steps = k from rfl]
    have h0 := runLoop_jmp0 k k 0
    simpa [mkCPU] using h0

/-- Witness for C5 at budget 2. -/
theorem C5_step_budget_witness :
    ({ registers := [0], instructions := ["JMP V0"], maxSteps := 2,
       ip := 0, cf := 0, steps := 2 } : CPUState).steps ≤ 2 :=
  C5_step_budget.1 [0] ["JMP V0"] 2
    { registers := [0], instructions := ["JMP V0"], maxSteps := 2,
      ip := 0, cf := 0, steps := 2 } (by decide)

/-- C6: a program counter outside `[0, instruction_count)` ends the run
normally with the current register state and no error; in particular the
out-of-range jump `JMP V100` on registers `[0]` returns `[0]`. -/
theorem C6_pc_out_of_range :
    (∀ st : CPUState,
        ¬ (0 ≤ st.ip ∧ st.ip < (st.instructions.length : Int)) →
        CPUSimulator.run st = .ok st) ∧
    simulate_cpu [0] ["JMP V100"] = .ok [0] := by
  constructor
  · intro st h
    unfold CPUSimulator.run
    cases hf : st.maxSteps - st.steps with
    | zero => exact runLoop_zero st
    | succ n => exact runLoop_succ_out n st h
  · decide

/-- Witness for C6 with the program counter already out of range. -/
theorem C6_pc_out_of_range_witness :
    CPUSimulator.run
        { registers := [3], instructions := ["HALT"],
          maxSteps := 7, ip := 5, cf := 0, steps := 0 } =
      .ok { registers := [3], instructions := ["HALT"], maxSteps := 7,
            ip := 5, cf := 0, steps := 0 } :=
  C6_pc_out_of_range.1 _ (by decide)

/-- C7: a program whose first instruction is `HALT` returns the initial
registers unchanged whatever the remaining instructions are. -/
theorem C7_halt_first (regs : List Int) (rest : List String) :
    simulate_cpu regs ("HALT" :: rest) = .ok regs := by
  show (runLoop (499999 + 1) ⟨regs, "HALT" :: rest, 500000, 0, 0, 0⟩).map
      (fun st => st.registers) = .ok regs
  rw [runLoop_succ_in]
  · rfl
  · refine ⟨le_refl 0, ?_⟩
    show (0 : Int) < (("HALT" :: rest).length : Int)
    simp

/-- C8: the self-modifying jump program halts at the `HALT` at index 4
after 5 steps with final registers `[3, 103]`; the instruction at index 5
never runs. -/
theorem C8_self_modifying_jump :
    CPUSimulator.run (mkCPU [5, 0]
        ["MOV R1, V3", "MOV R0, R1", "JMP R0", "ADD R1, V100",
         "HALT", "ADD R1, V999"] 500000) =
      .ok { registers := [3, 103],
            instructions := ["MOV R1, V3", "MOV R0, R1", "JMP R0",
              "ADD R1, V100", "HALT", "ADD R1, V999"],
            maxSteps := 500000, ip := 4, cf := 0, steps := 5 } ∧
    simulate_cpu [5, 0]
        ["MOV R1, V3", "MOV R0, R1", "JMP R0", "ADD R1, V100",
         "HALT", "ADD R1, V999"] =
      .ok [3, 103] :=
  ⟨by decide, by decide⟩

/-- C9: every successful write targets an existing register index, and a
successful run returns a register vector of the same length as the initial
one. -/
theorem C9_register_count_invariant :
    (∀ (regs : List Int) (t : Token) (v : Int) (regs1 : List Int),
        setValue regs t v = .ok regs1 → regs1.length = regs.length) ∧
    (∀ (regs out : List Int) (instrs : List String),
        simulate_cpu regs instrs = .ok out → out.length = regs.length) := by
  constructor
  · exact setValue_length
  · intro regs out instrs h
    unfold simulate_cpu at h
    cases hr : CPUSimulator.run (mkCPU regs instrs 500000) with
    | error e =>
      rw [hr] at h
      cases h
    | ok st1 =>
      rw [hr] at h
      simp only [Except.map] at h
      cases h
      exact runLoop_length _ _ _ hr

/-- Witness for C9 at a concrete write and a concrete run. -/
theorem C9_register_count_invariant_witness :
    ([(9 : Int), 2].length = [(1 : Int), 2].length) ∧
    ([(1 : Int), 2].length = [(1 : Int), 2].length) :=
  ⟨C9_register_count_invariant.1 [1, 2] "R0".data 9 [9, 2] (by decide),
   C9_register_count_invariant.2 [1, 2] [1, 2] ["HALT"] (by decide)⟩

/-- C1 counterexample: the non-blank instruction `FOO` has an opcode
outside the recognized set, yet the run finishes without any error and
returns the registers (the dispatch chain has no final `else`, so the
instruction is silently skipped). -/
theorem C1_unknown_opcode_no_error :
    simulate_cpu [0] ["FOO"] = .ok [0] := by decide

/-- C1 (amended): executing a non-blank instruction whose opcode token is
not in the recognized set raises no error at all: it is a silent no-op
that only advances the program counter (and burns one step of budget). -/
theorem C1_unknown_opcode_silent (st : CPUState) (opcode : Token)
    (operands : List Token)
    (hsplit : pySplit (replaceCommas
        (pyStrip (st.instructions.getD st.ip.toNat "").data)) =
      opcode :: operands)
    (hop : opcode ∉ [("MOV".data : Token), "ADD".data, "MUL".data,
      "CMP".data, "JMP".data, "JEQ".data, "JGT".data, "JLT".data,
      "HALT".data]) :
    stepInstr st = .next { st with ip := st.ip + 1, steps := st.steps + 1 } := by
  simp only [List.mem_cons, List.not_mem_nil, or_false, not_or] at hop
  obtain ⟨h1, h2, h3, h4, h5, h6, h7, h8, h9⟩ := hop
  unfold stepInstr
  rw [execInstr_dispatch { st with steps := st.steps + 1 } opcode operands
    hsplit]
  rw [if_neg h1, if_neg h2, if_neg h3, if_neg h4, if_neg h5, if_neg h6,
    if_neg h7, if_neg h8, if_neg h9]

/-- Witness for the amended C1 on the concrete instruction `FOO`. -/
theorem C1_unknown_opcode_silent_witness :
    stepInstr (mkCPU [0] ["FOO"] 10) =
      .next { registers := [0], instructions := ["FOO"], maxSteps := 10,
              ip := 1, cf := 0, steps := 1 } :=
  C1_unknown_opcode_silent (mkCPU [0] ["FOO"] 10) "FOO".data []
    (by decide) (by decide)

/-- C2 counterexample: the token `V5x` has trailing characters after the
digits, so under the claim it must fail with the invalid-format error; the
code instead accepts it (the regex match is not anchored at the end) and
resolves it to the value 5. -/
theorem C2_trailing_garbage_accepted :
    matchOperand "V5x".data = some ('V', 5) ∧
    getValue [(0 : Int)] "V5x".data = .ok 5 ∧
    simulate_cpu [0] ["MOV R0, V5x"] = .ok [5] :=
  ⟨by decide, by decide, by decide⟩

/-- C2 (amended): the operand matcher accepts a token exactly when it
begins with a mode letter (V, R or P) immediately followed by at least one
decimal digit — trailing characters after the digit run are ignored; on
every rejected token both resolution operations fail with the
invalid-format error rather than yielding a fallback value. -/
theorem C2_operand_grammar :
    (∀ t : Token, (matchOperand t).isSome = operandPrefixGrammar t) ∧
    (∀ (regs : List Int) (t : Token) (v : Int),
        matchOperand t = none →
        getValue regs t = .error (Err.invalidOperandFormat t) ∧
        setValue regs t v = .error (Err.invalidOperandFormat t)) := by
  constructor
  · intro t
    match t with
    | [] => rfl
    | [c] =>
      by_cases h1 : (c = 'V' || c = 'R' || c = 'P') = true <;>
        simp [matchOperand, operandPrefixGrammar, h1]
    | c :: d :: rest =>
      by_cases h1 : (c = 'V' || c = 'R' || c = 'P') = true <;>
        by_cases h2 : isDigitChar d = true <;>
          simp [matchOperand, operandPrefixGrammar, List.takeWhile_cons,
            h1, h2]
  · intro regs t v h
    unfold getValue setValue
    rw [h]
    exact ⟨rfl, rfl⟩

/-- Witness for C2 on the spec's own example `X5`. -/
theorem C2_operand_grammar_witness :
    getValue [(0 : Int)] "X5".data =
      .error (Err.invalidOperandFormat "X5".data) ∧
    setValue [(0 : Int)] "X5".data 1 =
      .error (Err.invalidOperandFormat "X5".data) :=
  C2_operand_grammar.2 [0] "X5".data 1 (by decide)

/-- C3 counterexample: three arity mismatches that execute without any
error — `HALT` with one operand (arity 0), `JMP` with two operands
(arity 1, the extra operand is ignored), and an untaken `JGT` with no
operand (arity 1, the operand list is never consulted). -/
theorem C3_arity_not_always_checked :
    simulate_cpu [0] ["HALT V1"] = .ok [0] ∧
    simulate_cpu [0] ["JMP V9 V0"] = .ok [0] ∧
    simulate_cpu [0] ["JGT"] = .ok [0] :=
  ⟨by decide, by decide, by decide⟩

/-- C3 (amended): arity is only checked where an operand is consumed.  The
two-operand opcodes MOV, ADD, MUL, CMP fail on any operand count other
than two (the tuple unpacking raises); a taken jump with an empty operand
list fails with the index error; but HALT never inspects its operands, an
untaken conditional jump never inspects its operands, and a jump with
extra operands silently ignores everything past the first. -/
theorem C3_lazy_arity :
    (∀ (st : CPUState) (opcode : Token) (operands : List Token),
        pySplit (replaceCommas
            (pyStrip (st.instructions.getD st.ip.toNat "").data)) =
          opcode :: operands →
        opcode ∈ [("MOV".data : Token), "ADD".data, "MUL".data,
          "CMP".data] →
        operands.length ≠ 2 →
        stepInstr st = .err Err.unpackMismatch) ∧
    (∀ (st : CPUState) (operands : List Token),
        pySplit (replaceCommas
            (pyStrip (st.instructions.getD st.ip.toNat "").data)) =
          "JMP".data :: operands →
        operands = [] →
        stepInstr st = .err Err.emptyOperands) ∧
    (∀ (st : CPUState) (operands : List Token),
        pySplit (replaceCommas
            (pyStrip (st.instructions.getD st.ip.toNat "").data)) =
          "HALT".data :: operands →
        stepInstr st = .halted { st with steps := st.steps + 1 }) ∧
    (∀ (st : CPUState) (operands : List Token),
        pySplit (replaceCommas
            (pyStrip (st.instructions.getD st.ip.toNat "").data)) =
          "JGT".data :: operands →
        st.cf ≠ 1 →
        stepInstr st =
          .next { st with ip := st.ip + 1, steps := st.steps + 1 }) := by
  refine ⟨?_, ?_, ?_, ?_⟩
  · intro st opcode operands hsplit hmem hlen
    simp only [List.mem_cons, List.not_mem_nil, or_false] at hmem
    unfold stepInstr
    rw [execInstr_dispatch { st with steps := st.steps + 1 } opcode operands
      hsplit]
    rcases operands with - | ⟨a, - | ⟨b, - | ⟨c, rest⟩⟩⟩
    · rcases hmem with h | h | h | h <;> (subst h; rfl)
    · rcases hmem with h | h | h | h <;> (subst h; rfl)
    · exact absurd rfl hlen
    · rcases hmem with h | h | h | h <;> (subst h; rfl)
  · intro st operands hsplit hops
    subst hops
    unfold stepInstr
    rw [execInstr_dispatch { st with steps := st.steps + 1 } "JMP".data []
      hsplit]
    rfl
  · intro st operands hsplit
    unfold stepInstr
    rw [execInstr_dispatch { st with steps := st.steps + 1 } "HALT".data
      operands hsplit]
    rfl
  · intro st operands hsplit hcf
    unfold stepInstr
    rw [execInstr_dispatch { st with steps := st.steps + 1 } "JGT".data
      operands hsplit]
    show (if st.cf = 1 then execJump { st with steps := st.steps + 1 }
        operands
      else .next { st with ip := st.ip + 1, steps := st.steps + 1 }) = _
    rw [if_neg hcf]

/-- Witness for the amended C3 on concrete programs. -/
theorem C3_lazy_arity_witness :
    stepInstr (mkCPU [0] ["MOV R0"] 10) = .err Err.unpackMismatch ∧
    stepInstr (mkCPU [0] ["JMP"] 10) = .err Err.emptyOperands ∧
    stepInstr (mkCPU [0] ["HALT V1"] 10) =
      .halted { registers := [0], instructions := ["HALT V1"],
                maxSteps := 10, ip := 0, cf := 0, steps := 1 } ∧
    stepInstr (mkCPU [0] ["JGT"] 10) =
      .next { registers := [0], instructions := ["JGT"], maxSteps := 10,
              ip := 1, cf := 0, steps := 1 } :=
  ⟨C3_lazy_arity.1 (mkCPU [0] ["MOV R0"] 10) "MOV".data ["R0".data]
      (by decide) (by decide) (by decide),
   C3_lazy_arity.2.1 (mkCPU [0] ["JMP"] 10) [] (by decide) rfl,
   C3_lazy_arity.2.2.1 (mkCPU [0] ["HALT V1"] 10) ["V1".data] (by decide),
   C3_lazy_arity.2.2.2 (mkCPU [0] ["JGT"] 10) [] (by decide) (by decide)⟩
